import Mathlib

/-!
Verification of the `rust_src/lib.rs` binding layer of the repository: nine
streaming estimator classes (`RsQuantile`, `RsEWMean`, `RsEWVar`, `RsIQR`,
`RsKurtosis`, `RsPeakToPeak`, `RsSkew`, `RsRollingQuantile`, `RsRollingIQR`)
plus the batch squared-Euclidean distance routine `RsGet1ToNDistances`.

Embedding conventions:
* `f64` values are modelled as `ℚ` (exact field arithmetic; IEEE rounding,
  NaN and infinities are outside the model).  The skew statistic, whose
  closed form needs a real square root, returns `ℝ`.
* The inner `watermill` estimator states are not part of `src/`; they are
  modelled from the spec (each such definition carries a
  `Modelled from the spec:` doc comment).
* `bincode` byte strings are modelled as `List ℚ` token streams: one token
  per primitive field, a tag token for `Option`, a length token for `Vec`.
  This keeps bincode's contract (injective encoding, decoding inverts
  encoding, decoding of ill-shaped input fails) without bit-level detail.
* A Rust/pyo3 method outcome is `PyRes`: `ok` (normal return),
  `err` (a raised `PyErr`, i.e. a typed Python-level error), or
  `panicked` (a Rust panic from `unwrap`/`expect`, which pyo3 surfaces as a
  `PanicException`).  The distinction between `err` and `panicked` matters:
  the spec promises typed errors (`CorruptSnapshot`, `InvalidParameter`,
  `InvalidArgument`) while the code only ever panics.
-/

/-- Outcome of a Rust/pyo3 call: normal return, raised typed error, or panic. -/
inductive PyRes (α : Type) where
  | ok : α → PyRes α
  | err : String → PyRes α
  | panicked : String → PyRes α
deriving DecidableEq, Repr

namespace PyRes

/-- True exactly when the outcome is a raised typed error (a `PyErr`). -/
def isErr : PyRes α → Bool
  | .err _ => true
  | _ => false

/-- True exactly when the outcome is a Rust panic. -/
def isPanicked : PyRes α → Bool
  | .panicked _ => true
  | _ => false

/-- True exactly when the outcome is a normal return. -/
def isOk : PyRes α → Bool
  | .ok _ => true
  | _ => false

end PyRes

/-- Panic message of `Result::unwrap` on an `Err` value, as raised by the
`deserialize(..).unwrap()` and constructor `unwrap`/`expect` calls. -/
def unwrapMsg : String := "called Result::unwrap on an Err value"

/-- Panic message of an integer division by zero in Rust. -/
def divZeroMsg : String := "attempt to divide by zero"

/-! ### Token-stream codec primitives (model of bincode fields) -/

/-- Read one `f64` token. -/
def readQ : List ℚ → Option (ℚ × List ℚ)
  | [] => none
  | x :: r => some (x, r)

/-- Write one `usize` as a token (bincode writes the integer itself). -/
def writeNat (n : ℕ) : List ℚ := [(n : ℚ)]

/-- Read one `usize` token: the token must be a non-negative integer. -/
def readNat : List ℚ → Option (ℕ × List ℚ)
  | [] => none
  | x :: r => if x.den = 1 ∧ 0 ≤ x.num then some (x.num.toNat, r) else none

/-- Write one `bool` token (bincode writes a 0/1 byte). -/
def writeBool (b : Bool) : List ℚ := [if b then 1 else 0]

/-- Read one `bool` token. -/
def readBool : List ℚ → Option (Bool × List ℚ)
  | [] => none
  | x :: r => if x = 1 then some (true, r) else if x = 0 then some (false, r) else none

/-- Write an `Option<f64>` (bincode: a tag byte, then the payload if any). -/
def writeOptQ : Option ℚ → List ℚ
  | none => [0]
  | some v => [1, v]

/-- Read an `Option<f64>`. -/
def readOptQ : List ℚ → Option (Option ℚ × List ℚ)
  | [] => none
  | x :: r =>
    if x = 0 then some (none, r)
    else if x = 1 then
      match r with
      | [] => none
      | v :: r2 => some (some v, r2)
    else none

/-- Write an `Option<(f64, f64)>` (tag byte, then both payload fields). -/
def writeOptPair : Option (ℚ × ℚ) → List ℚ
  | none => [0]
  | some p => [1, p.1, p.2]

/-- Read an `Option<(f64, f64)>`. -/
def readOptPair : List ℚ → Option (Option (ℚ × ℚ) × List ℚ)
  | [] => none
  | x :: r =>
    if x = 0 then some (none, r)
    else if x = 1 then
      match r with
      | a :: b :: r2 => some (some (a, b), r2)
      | _ => none
    else none

/-- Read exactly `n` `f64` tokens. -/
def readCount : ℕ → List ℚ → Option (List ℚ × List ℚ)
  | 0, l => some ([], l)
  | _ + 1, [] => none
  | n + 1, x :: r =>
    match readCount n r with
    | some (xs, rest) => some (x :: xs, rest)
    | none => none

/-- Write a `Vec<f64>` (bincode: length prefix then the elements). -/
def writeListQ (xs : List ℚ) : List ℚ := (xs.length : ℚ) :: xs

/-- Read a `Vec<f64>`. -/
def readListQ (l : List ℚ) : Option (List ℚ × List ℚ) :=
  match readNat l with
  | some (n, r) => readCount n r
  | none => none

theorem readQ_cons (x : ℚ) (r : List ℚ) : readQ (x :: r) = some (x, r) := rfl

theorem readNat_write (n : ℕ) (r : List ℚ) :
    readNat ((n : ℚ) :: r) = some (n, r) := by
  simp [readNat, Rat.den_natCast, Rat.num_natCast]

theorem readBool_write (b : Bool) (r : List ℚ) :
    readBool (writeBool b ++ r) = some (b, r) := by
  cases b <;> simp [readBool, writeBool]

theorem readOptQ_write (m : Option ℚ) (r : List ℚ) :
    readOptQ (writeOptQ m ++ r) = some (m, r) := by
  cases m <;> simp [readOptQ, writeOptQ]

theorem readOptPair_write (m : Option (ℚ × ℚ)) (r : List ℚ) :
    readOptPair (writeOptPair m ++ r) = some (m, r) := by
  cases m <;> simp [readOptPair, writeOptPair]

theorem readCount_append (xs r : List ℚ) :
    readCount xs.length (xs ++ r) = some (xs, r) := by
  induction xs with
  | nil => rfl
  | cons x t ih => simp [readCount, ih]

theorem readListQ_write (xs r : List ℚ) :
    readListQ (writeListQ xs ++ r) = some (xs, r) := by
  simp [readListQ, writeListQ, readNat_write, readCount_append]

/-! ### Sorting and rank helpers for order statistics -/

/-- Insert into a sorted list (ascending). -/
def insortQ (x : ℚ) : List ℚ → List ℚ
  | [] => [x]
  | y :: t => if x ≤ y then x :: y :: t else y :: insortQ x t

/-- Sort a list of rationals ascending by insertion sort. -/
def sortQ (l : List ℚ) : List ℚ := l.foldr insortQ []

/-- Modelled from the spec: nearest-rank index `round(q*(len-1))`, ties
resolved deterministically toward the lower index. -/
def rankOf (q : ℚ) (len : ℕ) : ℕ :=
  if len = 0 then 0 else (Int.ceil (q * ((len - 1 : ℕ) : ℚ) - 1 / 2)).toNat

/-! ### P-squared approximate quantile (inner state of `watermill::quantile::Quantile`) -/

/-- Modelled from the spec: state of the P-squared fixed-memory quantile
estimator (`watermill::quantile::Quantile`, not part of `src/`): the target
level `q`, the number of observations seen, the initial buffer of the first
observations (in arrival order, used until five have been seen), and five
markers as (position, height) pairs.  Marker positions/heights before the
fifth observation are placeholders. -/
structure P2State where
  q : ℚ
  count : ℕ
  init : List ℚ
  p1 : ℚ
  p2 : ℚ
  p3 : ℚ
  p4 : ℚ
  p5 : ℚ
  h1 : ℚ
  h2 : ℚ
  h3 : ℚ
  h4 : ℚ
  h5 : ℚ
deriving DecidableEq, Repr

/-- Modelled from the spec: fresh P-squared state for level `q`. -/
def P2State.start (q : ℚ) : P2State :=
  ⟨q, 0, [], 1, 2, 3, 4, 5, 0, 0, 0, 0, 0⟩

/-- Modelled from the spec: adjustment of one interior marker.  Given the
left/current/right positions `pm, p, pp`, heights `hm, h, hp` and the
desired position `d`, move the marker by one if it has drifted more than
one from its desired position, recomputing its height by the
piecewise-parabolic formula, falling back to linear interpolation when the
parabolic estimate would break monotonicity. -/
def p2Adjust (pm p pp hm h hp d : ℚ) : ℚ × ℚ :=
  let diff := d - p
  if (1 ≤ diff ∧ 1 < pp - p) ∨ (diff ≤ -1 ∧ pm - p < -1) then
    let s : ℚ := if 1 ≤ diff then 1 else -1
    let hpar := h + s / (pp - pm) *
      ((p - pm + s) * (hp - h) / (pp - p) + (pp - p - s) * (h - hm) / (p - pm))
    if hm < hpar ∧ hpar < hp then (p + s, hpar)
    else if s = 1 then (p + 1, h + (hp - h) / (pp - p))
    else (p - 1, h - (hm - h) / (pm - p))
  else (p, h)

/-- Modelled from the spec: one P-squared update.  The first five
observations are buffered; on the fifth they are sorted into the marker
heights with positions 1..5.  Afterwards: locate the cell of `x` among the
marker heights (extending the extreme heights when `x` falls outside),
increment the positions of the markers above the cell, recompute the
desired positions from `q` and the new count, and adjust the three interior
markers in order. -/
def p2Update (st : P2State) (x : ℚ) : P2State :=
  if st.count < 4 then
    { st with count := st.count + 1, init := st.init ++ [x] }
  else if st.count = 4 then
    let obs := sortQ (st.init ++ [x])
    { st with
      count := 5, init := []
      p1 := 1, p2 := 2, p3 := 3, p4 := 4, p5 := 5
      h1 := obs.getD 0 0, h2 := obs.getD 1 0, h3 := obs.getD 2 0
      h4 := obs.getD 3 0, h5 := obs.getD 4 0 }
  else
    let k : ℕ :=
      if x < st.h2 then 1
      else if x < st.h3 then 2
      else if x < st.h4 then 3
      else 4
    let h1 := min st.h1 x
    let h5 := max st.h5 x
    let p2 := if k < 2 then st.p2 + 1 else st.p2
    let p3 := if k < 3 then st.p3 + 1 else st.p3
    let p4 := if k < 4 then st.p4 + 1 else st.p4
    let p5 := st.p5 + 1
    let count := st.count + 1
    let nn : ℚ := ((count - 1 : ℕ) : ℚ)
    let d2 := 1 + nn * (st.q / 2)
    let d3 := 1 + nn * st.q
    let d4 := 1 + nn * ((1 + st.q) / 2)
    let m2 := p2Adjust st.p1 p2 p3 h1 st.h2 st.h3 d2
    let m3 := p2Adjust m2.1 p3 p4 m2.2 st.h3 st.h4 d3
    let m4 := p2Adjust m3.1 p4 p5 m3.2 st.h4 h5 d4
    { st with
      count := count
      p2 := m2.1, p3 := m3.1, p4 := m4.1, p5 := p5
      h1 := h1, h2 := m2.2, h3 := m3.2, h4 := m4.2, h5 := h5 }

/-- Modelled from the spec: P-squared query.  Once at least five
observations have been seen, the height of the middle marker; before that,
the exact order statistic of the observations seen so far at the
nearest-rank index (0 when no observation has been seen). -/
def p2Get (st : P2State) : ℚ :=
  if 5 ≤ st.count then st.h3
  else (sortQ st.init).getD (rankOf st.q st.init.length) 0

/-- Token encoding of a `P2State` (model of its bincode serialization). -/
def encP2 (s : P2State) : List ℚ :=
  [s.q] ++ writeNat s.count ++ writeListQ s.init ++
    [s.p1, s.p2, s.p3, s.p4, s.p5, s.h1, s.h2, s.h3, s.h4, s.h5]

/-- Token decoding of a `P2State`, returning the remaining stream. -/
def decP2 (b : List ℚ) : Option (P2State × List ℚ) :=
  match readQ b with
  | none => none
  | some (q, b1) =>
    match readNat b1 with
    | none => none
    | some (count, b2) =>
      match readListQ b2 with
      | none => none
      | some (init, b3) =>
        match b3 with
        | p1 :: p2 :: p3 :: p4 :: p5 :: h1 :: h2 :: h3 :: h4 :: h5 :: rest =>
          some (⟨q, count, init, p1, p2, p3, p4, p5, h1, h2, h3, h4, h5⟩, rest)
        | _ => none

theorem decP2_enc (s : P2State) (r : List ℚ) :
    decP2 (encP2 s ++ r) = some (s, r) := by
  simp [decP2, encP2, writeNat, readQ, readNat_write, readListQ_write]

/-! ### Inner moment-accumulator states (from `watermill`, modelled from the spec) -/

/-- Modelled from the spec: `watermill::ewmean::EWMean` state — the decay
factor and the running mean, unset until the first update (which
initializes it to the first observation). -/
structure EWMeanSt where
  alpha : ℚ
  mean : Option ℚ
deriving DecidableEq, Repr

/-- Modelled from the spec: `EWMean` update, `m <- m + alpha*(x - m)`, with
the first observation initializing `m`. -/
def ewmeanUpdate (s : EWMeanSt) (x : ℚ) : EWMeanSt :=
  { s with mean := some (match s.mean with
      | none => x
      | some m => m + s.alpha * (x - m)) }

/-- Modelled from the spec: `EWMean` query returns the running mean (0 as
the sentinel before any update). -/
def ewmeanGet (s : EWMeanSt) : ℚ := s.mean.getD 0

/-- Modelled from the spec: `watermill::ewvariance::EWVariance` state — the
decay factor, running mean `m` and running variance `v`. -/
structure EWVarSt where
  alpha : ℚ
  m : ℚ
  v : ℚ
deriving DecidableEq, Repr

/-- Modelled from the spec: `EWVariance` update:
`diff <- x - m; incr <- alpha*diff; m <- m + incr; v <- (1-alpha)*(v + diff*incr)`. -/
def ewvarUpdate (s : EWVarSt) (x : ℚ) : EWVarSt :=
  let diff := x - s.m
  let incr := s.alpha * diff
  { s with m := s.m + incr, v := (1 - s.alpha) * (s.v + diff * incr) }

/-- Modelled from the spec: `EWVariance` query returns `v`. -/
def ewvarGet (s : EWVarSt) : ℚ := s.v

/-- Modelled from the spec: `watermill::kurtosis::Kurtosis` state — the bias
flag and the Welford running central moments `(n, mean, M2, M3, M4)`. -/
structure KurtSt where
  bias : Bool
  n : ℕ
  mean : ℚ
  m2 : ℚ
  m3 : ℚ
  m4 : ℚ
deriving DecidableEq, Repr

/-- Modelled from the spec: numerically stable Welford-style single-pass
update of the central moments up to order four. -/
def kurtUpdate (s : KurtSt) (x : ℚ) : KurtSt :=
  let n1 : ℕ := s.n + 1
  let nq : ℚ := (n1 : ℚ)
  let delta := x - s.mean
  let dn := delta / nq
  let dn2 := dn * dn
  let term1 := delta * dn * ((s.n : ℕ) : ℚ)
  { s with
    n := n1
    mean := s.mean + dn
    m4 := s.m4 + term1 * dn2 * (nq * nq - 3 * nq + 3) + 6 * dn2 * s.m2 - 4 * dn * s.m3
    m3 := s.m3 + term1 * dn * (nq - 2) - 3 * dn * s.m2
    m2 := s.m2 + term1 }

/-- Modelled from the spec: kurtosis query.  With `bias = true` the raw
excess kurtosis `M4/n / (M2/n)^2 - 3`; with `bias = false` the standard
finite-sample corrected formula, defined for `n >= 4` (0 is the sentinel
otherwise, standing in for the spec's NaN, which `ℚ` cannot represent). -/
def kurtGet (s : KurtSt) : ℚ :=
  let n : ℚ := (s.n : ℚ)
  if s.bias then
    if s.n = 0 then 0 else (s.m4 / n) / ((s.m2 / n) ^ 2) - 3
  else
    if s.n < 4 then 0
    else
      let g2 := (s.m4 / n) / ((s.m2 / n) ^ 2) - 3
      ((n + 1) * g2 + 6) * (n - 1) / ((n - 2) * (n - 3))

/-- Modelled from the spec: `watermill::skew::Skew` state — the bias flag
and the Welford running central moments `(n, mean, M2, M3)`. -/
structure SkewSt where
  bias : Bool
  n : ℕ
  mean : ℚ
  m2 : ℚ
  m3 : ℚ
deriving DecidableEq, Repr

/-- Modelled from the spec: Welford-style single-pass update of the central
moments up to order three. -/
def skewUpdate (s : SkewSt) (x : ℚ) : SkewSt :=
  let n1 : ℕ := s.n + 1
  let nq : ℚ := (n1 : ℚ)
  let delta := x - s.mean
  let dn := delta / nq
  let term1 := delta * dn * ((s.n : ℕ) : ℚ)
  { s with
    n := n1
    mean := s.mean + dn
    m3 := s.m3 + term1 * dn * (nq - 2) - 3 * dn * s.m2
    m2 := s.m2 + term1 }

/-- Modelled from the spec: skew query, `g1 = (M3/n) / (M2/n)^1.5`, with
Fisher's finite-sample correction `sqrt(n*(n-1))/(n-2) * g1` when
`bias = false` (defined for `n >= 3`; 0 is the sentinel otherwise).  The
1.5 power forces the value into `ℝ`. -/
noncomputable def skewGetR (s : SkewSt) : ℝ :=
  let n : ℝ := (s.n : ℝ)
  if s.n = 0 then 0
  else
    let g1 := ((s.m3 : ℚ) : ℝ) / n / Real.sqrt ((((s.m2 : ℚ) : ℝ) / n) ^ 3)
    if s.bias then g1
    else if s.n < 3 then 0
    else Real.sqrt (n * (n - 1)) / (n - 2) * g1

/-- Modelled from the spec: `watermill::ptp::PeakToPeak` state — the running
minimum and maximum, unset until the first update. -/
structure PtpSt where
  range : Option (ℚ × ℚ)
deriving DecidableEq, Repr

/-- Modelled from the spec: `PeakToPeak` update extends the running min/max. -/
def ptpUpdate (s : PtpSt) (x : ℚ) : PtpSt :=
  ⟨match s.range with
    | none => some (x, x)
    | some (mn, mx) => some (min mn x, max mx x)⟩

/-- Modelled from the spec: `PeakToPeak` query returns `max - min` (0 is the
sentinel before any update). -/
def ptpGet (s : PtpSt) : ℚ :=
  match s.range with
  | none => 0
  | some (mn, mx) => mx - mn

/-- Modelled from the spec: `watermill::quantile::RollingQuantile` state —
the level, the window capacity and the buffer of the last observations in
arrival order (the auxiliary ordered index is representationally redundant:
it always holds exactly the buffer contents, so queries sort the buffer). -/
structure RQSt where
  q : ℚ
  ws : ℕ
  window : List ℚ
deriving DecidableEq, Repr

/-- Modelled from the spec: rolling-window insertion — when the buffer is
full the oldest element is evicted, then the new observation is appended. -/
def rollUpdate (ws : ℕ) (window : List ℚ) (x : ℚ) : List ℚ :=
  (if ws ≤ window.length then window.drop 1 else window) ++ [x]

/-- Modelled from the spec: `RollingQuantile` update. -/
def rqUpdate (s : RQSt) (x : ℚ) : RQSt :=
  { s with window := rollUpdate s.ws s.window x }

/-- Modelled from the spec: `RollingQuantile` query — the exact nearest-rank
order statistic of the current window contents (0 is the sentinel for an
empty window). -/
def rqGet (s : RQSt) : ℚ :=
  if s.window = [] then 0
  else (sortQ s.window).getD (rankOf s.q s.window.length) 0

/-- Modelled from the spec: `watermill::iqr::RollingIQR` state — one shared
window with the two levels and the capacity. -/
structure RIQRSt where
  qInf : ℚ
  qSup : ℚ
  ws : ℕ
  window : List ℚ
deriving DecidableEq, Repr

/-- Modelled from the spec: `RollingIQR` update. -/
def riqrUpdate (s : RIQRSt) (x : ℚ) : RIQRSt :=
  { s with window := rollUpdate s.ws s.window x }

/-- Modelled from the spec: `RollingIQR` query — the difference of the two
nearest-rank order statistics of the current window. -/
def riqrGet (s : RIQRSt) : ℚ :=
  if s.window = [] then 0
  else
    let sorted := sortQ s.window
    sorted.getD (rankOf s.qSup s.window.length) 0 -
      sorted.getD (rankOf s.qInf s.window.length) 0

/-- Modelled from the spec: `watermill::iqr::IQR` state — two independent
P-squared quantile estimators at the lower and upper levels. -/
structure IQRSt where
  inf : P2State
  sup : P2State
deriving DecidableEq, Repr

/-- Modelled from the spec: `IQR` update forwards to both inner estimators. -/
def iqrStUpdate (s : IQRSt) (x : ℚ) : IQRSt :=
  ⟨p2Update s.inf x, p2Update s.sup x⟩

/-- Modelled from the spec: `IQR` query returns upper minus lower quantile. -/
def iqrStGet (s : IQRSt) : ℚ := p2Get s.sup - p2Get s.inf

/-! ### Token codecs for the inner states -/

/-- Encoding of an `EWMeanSt`. -/
def encEWMeanSt (s : EWMeanSt) : List ℚ := [s.alpha] ++ writeOptQ s.mean

/-- Decoding of an `EWMeanSt`. -/
def decEWMeanSt (b : List ℚ) : Option (EWMeanSt × List ℚ) :=
  match readQ b with
  | none => none
  | some (a, b1) =>
    match readOptQ b1 with
    | none => none
    | some (m, b2) => some (⟨a, m⟩, b2)

theorem decEWMeanSt_enc (s : EWMeanSt) (r : List ℚ) :
    decEWMeanSt (encEWMeanSt s ++ r) = some (s, r) := by
  simp [decEWMeanSt, encEWMeanSt, readQ, readOptQ_write]

/-- Encoding of an `EWVarSt`. -/
def encEWVarSt (s : EWVarSt) : List ℚ := [s.alpha, s.m, s.v]

/-- Decoding of an `EWVarSt`. -/
def decEWVarSt (b : List ℚ) : Option (EWVarSt × List ℚ) :=
  match b with
  | a :: m :: v :: r => some (⟨a, m, v⟩, r)
  | _ => none

theorem decEWVarSt_enc (s : EWVarSt) (r : List ℚ) :
    decEWVarSt (encEWVarSt s ++ r) = some (s, r) := rfl

/-- Encoding of a `KurtSt`. -/
def encKurtSt (s : KurtSt) : List ℚ :=
  writeBool s.bias ++ writeNat s.n ++ [s.mean, s.m2, s.m3, s.m4]

/-- Decoding of a `KurtSt`. -/
def decKurtSt (b : List ℚ) : Option (KurtSt × List ℚ) :=
  match readBool b with
  | none => none
  | some (bias, b1) =>
    match readNat b1 with
    | none => none
    | some (n, b2) =>
      match b2 with
      | mean :: m2 :: m3 :: m4 :: r => some (⟨bias, n, mean, m2, m3, m4⟩, r)
      | _ => none

theorem decKurtSt_enc (s : KurtSt) (r : List ℚ) :
    decKurtSt (encKurtSt s ++ r) = some (s, r) := by
  simp [decKurtSt, encKurtSt, writeNat, readBool_write, readNat_write]

/-- Encoding of a `SkewSt`. -/
def encSkewSt (s : SkewSt) : List ℚ :=
  writeBool s.bias ++ writeNat s.n ++ [s.mean, s.m2, s.m3]

/-- Decoding of a `SkewSt`. -/
def decSkewSt (b : List ℚ) : Option (SkewSt × List ℚ) :=
  match readBool b with
  | none => none
  | some (bias, b1) =>
    match readNat b1 with
    | none => none
    | some (n, b2) =>
      match b2 with
      | mean :: m2 :: m3 :: r => some (⟨bias, n, mean, m2, m3⟩, r)
      | _ => none

theorem decSkewSt_enc (s : SkewSt) (r : List ℚ) :
    decSkewSt (encSkewSt s ++ r) = some (s, r) := by
  simp [decSkewSt, encSkewSt, writeNat, readBool_write, readNat_write]

/-- Encoding of a `PtpSt`. -/
def encPtpSt (s : PtpSt) : List ℚ := writeOptPair s.range

/-- Decoding of a `PtpSt`. -/
def decPtpSt (b : List ℚ) : Option (PtpSt × List ℚ) :=
  match readOptPair b with
  | none => none
  | some (m, r) => some (⟨m⟩, r)

theorem decPtpSt_enc (s : PtpSt) (r : List ℚ) :
    decPtpSt (encPtpSt s ++ r) = some (s, r) := by
  simp [decPtpSt, encPtpSt, readOptPair_write]

/-- Encoding of an `RQSt`. -/
def encRQSt (s : RQSt) : List ℚ := [s.q] ++ writeNat s.ws ++ writeListQ s.window

/-- Decoding of an `RQSt`. -/
def decRQSt (b : List ℚ) : Option (RQSt × List ℚ) :=
  match readQ b with
  | none => none
  | some (q, b1) =>
    match readNat b1 with
    | none => none
    | some (ws, b2) =>
      match readListQ b2 with
      | none => none
      | some (w, b3) => some (⟨q, ws, w⟩, b3)

theorem decRQSt_enc (s : RQSt) (r : List ℚ) :
    decRQSt (encRQSt s ++ r) = some (s, r) := by
  simp [decRQSt, encRQSt, writeNat, readQ, readNat_write, readListQ_write]

/-- Encoding of an `RIQRSt`. -/
def encRIQRSt (s : RIQRSt) : List ℚ :=
  [s.qInf, s.qSup] ++ writeNat s.ws ++ writeListQ s.window

/-- Decoding of an `RIQRSt`. -/
def decRIQRSt (b : List ℚ) : Option (RIQRSt × List ℚ) :=
  match b with
  | [] => none
  | qi :: b0 =>
    match readQ b0 with
    | none => none
    | some (qs, b1) =>
      match readNat b1 with
      | none => none
      | some (ws, b2) =>
        match readListQ b2 with
        | none => none
        | some (w, b3) => some (⟨qi, qs, ws, w⟩, b3)

theorem decRIQRSt_enc (s : RIQRSt) (r : List ℚ) :
    decRIQRSt (encRIQRSt s ++ r) = some (s, r) := by
  simp [decRIQRSt, encRIQRSt, writeNat, readQ, readNat_write, readListQ_write]

/-- Encoding of an `IQRSt` (two consecutive P-squared states). -/
def encIQRSt (s : IQRSt) : List ℚ := encP2 s.inf ++ encP2 s.sup

/-- Decoding of an `IQRSt`. -/
def decIQRSt (b : List ℚ) : Option (IQRSt × List ℚ) :=
  match decP2 b with
  | none => none
  | some (inf, b1) =>
    match decP2 b1 with
    | none => none
    | some (sup, b2) => some (⟨inf, sup⟩, b2)

theorem decIQRSt_enc (s : IQRSt) (r : List ℚ) :
    decIQRSt (encIQRSt s ++ r) = some (s, r) := by
  simp [decIQRSt, encIQRSt, decP2_enc]

/-! ### The pyo3 wrapper classes of `rust_src/lib.rs` -/

/-- `RsQuantile` — wraps a `Quantile<f64>` (field `quantile`). -/
structure RsQuantile where
  quantile : P2State
deriving DecidableEq, Repr

/-- `RsEWMean` — wraps an `EWMean<f64>` plus a duplicated `alpha` field. -/
structure RsEWMean where
  ewmean : EWMeanSt
  alpha : ℚ
deriving DecidableEq, Repr

/-- `RsEWVar` — wraps an `EWVariance<f64>` plus a duplicated `alpha` field. -/
structure RsEWVar where
  ewvar : EWVarSt
  alpha : ℚ
deriving DecidableEq, Repr

/-- `RsIQR` — wraps an `IQR<f64>` plus duplicated `q_inf`/`q_sup` fields. -/
structure RsIQR where
  iqr : IQRSt
  q_inf : ℚ
  q_sup : ℚ
deriving DecidableEq, Repr

/-- `RsKurtosis` — wraps a `Kurtosis<f64>` plus a duplicated `bias` field. -/
structure RsKurtosis where
  kurtosis : KurtSt
  bias : Bool
deriving DecidableEq, Repr

/-- `RsPeakToPeak` — wraps a `PeakToPeak<f64>`. -/
structure RsPeakToPeak where
  ptp : PtpSt
deriving DecidableEq, Repr

/-- `RsSkew` — wraps a `Skew<f64>` plus a duplicated `bias` field. -/
structure RsSkew where
  skew : SkewSt
  bias : Bool
deriving DecidableEq, Repr

/-- `RsRollingQuantile` — wraps a `RollingQuantile<f64>` plus duplicated
`q` and `window_size` fields. -/
structure RsRollingQuantile where
  stat : RQSt
  q : ℚ
  window_size : ℕ
deriving DecidableEq, Repr

/-- `RsRollingIQR` — wraps a `RollingIQR<f64>` plus duplicated `q_inf`,
`q_sup` and `window_size` fields. -/
structure RsRollingIQR where
  stat : RIQRSt
  q_inf : ℚ
  q_sup : ℚ
  window_size : ℕ
deriving DecidableEq, Repr

/-! ### Constructors

The binding constructors call the inner `watermill` constructors.
`Quantile::new`, `IQR::new`, `RollingQuantile::new` and `RollingIQR::new`
return `Result` values and the binding unwraps them (`expect`/`unwrap`), so
invalid parameters surface as Rust panics; the validation predicates are
modelled from the spec.  `EWMean::new`, `EWVariance::new`, `Kurtosis::new`,
`Skew::new` and `PeakToPeak::new` return `Self` directly (the binding uses
their result as a plain struct value), so those constructors cannot fail. -/

/-- Success path of `RsQuantile::new` for level `q`. -/
def RsQuantile.mk0 (q : ℚ) : RsQuantile := ⟨P2State.start q⟩

/-- `RsQuantile::new`: `Quantile::new(q).expect(..)` when `q` is given
(validation `0 <= q <= 1` modelled from the spec; failure is the `expect`
panic), `Quantile::default()` (level one half) when it is not. -/
def RsQuantile.new : Option ℚ → PyRes RsQuantile
  | some q =>
    if 0 ≤ q ∧ q ≤ 1 then .ok (RsQuantile.mk0 q)
    else .panicked "q should between 0 and 1"
  | none => .ok (RsQuantile.mk0 (1 / 2))

/-- `RsEWMean::new(alpha)` — infallible, stores `alpha` twice. -/
def RsEWMean.new (alpha : ℚ) : RsEWMean := ⟨⟨alpha, none⟩, alpha⟩

/-- `RsEWVar::new(alpha)` — infallible, stores `alpha` twice. -/
def RsEWVar.new (alpha : ℚ) : RsEWVar := ⟨⟨alpha, 0, 0⟩, alpha⟩

/-- Success path of `RsIQR::new`. -/
def RsIQR.mk0 (qInf qSup : ℚ) : RsIQR :=
  ⟨⟨P2State.start qInf, P2State.start qSup⟩, qInf, qSup⟩

/-- `RsIQR::new`: `IQR::new(q_inf, q_sup).expect("TODO")` (validation that
both levels lie in `[0,1]` with `q_inf < q_sup` modelled from the spec). -/
def RsIQR.new (qInf qSup : ℚ) : PyRes RsIQR :=
  if 0 ≤ qInf ∧ qSup ≤ 1 ∧ qInf < qSup then .ok (RsIQR.mk0 qInf qSup)
  else .panicked "TODO"

/-- `RsKurtosis::new(bias)` — infallible, stores `bias` twice. -/
def RsKurtosis.new (bias : Bool) : RsKurtosis := ⟨⟨bias, 0, 0, 0, 0, 0⟩, bias⟩

/-- `RsPeakToPeak::new()` — infallible. -/
def RsPeakToPeak.new : RsPeakToPeak := ⟨⟨none⟩⟩

/-- `RsSkew::new(bias)` — infallible, stores `bias` twice. -/
def RsSkew.new (bias : Bool) : RsSkew := ⟨⟨bias, 0, 0, 0, 0⟩, bias⟩

/-- Success path of `RsRollingQuantile::new`. -/
def RsRollingQuantile.mk0 (q : ℚ) (ws : ℕ) : RsRollingQuantile :=
  ⟨⟨q, ws, []⟩, q, ws⟩

/-- `RsRollingQuantile::new`: `RollingQuantile::new(q, window_size).unwrap()`
(validation `0 <= q <= 1` and `window_size >= 1` modelled from the spec). -/
def RsRollingQuantile.new (q : ℚ) (ws : ℕ) : PyRes RsRollingQuantile :=
  if 0 ≤ q ∧ q ≤ 1 ∧ 1 ≤ ws then .ok (RsRollingQuantile.mk0 q ws)
  else .panicked unwrapMsg

/-- Success path of `RsRollingIQR::new`. -/
def RsRollingIQR.mk0 (qInf qSup : ℚ) (ws : ℕ) : RsRollingIQR :=
  ⟨⟨qInf, qSup, ws, []⟩, qInf, qSup, ws⟩

/-- `RsRollingIQR::new`: `RollingIQR::new(q_inf, q_sup, window_size).unwrap()`
(validation modelled from the spec). -/
def RsRollingIQR.new (qInf qSup : ℚ) (ws : ℕ) : PyRes RsRollingIQR :=
  if 0 ≤ qInf ∧ qSup ≤ 1 ∧ qInf < qSup ∧ 1 ≤ ws then
    .ok (RsRollingIQR.mk0 qInf qSup ws)
  else .panicked unwrapMsg

/-! ### Per-class `update` and `get` methods

Each binding `update` only forwards to the wrapped estimator's `update`,
leaving the duplicated parameter fields untouched; each binding `get`
borrows `self` immutably and forwards to the wrapped estimator's `get`. -/

/-- `RsQuantile::update`. -/
def RsQuantile.update (e : RsQuantile) (x : ℚ) : RsQuantile :=
  { e with quantile := p2Update e.quantile x }

/-- `RsQuantile::get`. -/
def RsQuantile.get (e : RsQuantile) : ℚ := p2Get e.quantile

/-- `RsEWMean::update`. -/
def RsEWMean.update (e : RsEWMean) (x : ℚ) : RsEWMean :=
  { e with ewmean := ewmeanUpdate e.ewmean x }

/-- `RsEWMean::get`. -/
def RsEWMean.get (e : RsEWMean) : ℚ := ewmeanGet e.ewmean

/-- `RsEWVar::update`. -/
def RsEWVar.update (e : RsEWVar) (x : ℚ) : RsEWVar :=
  { e with ewvar := ewvarUpdate e.ewvar x }

/-- `RsEWVar::get`. -/
def RsEWVar.get (e : RsEWVar) : ℚ := ewvarGet e.ewvar

/-- `RsIQR::update`. -/
def RsIQR.update (e : RsIQR) (x : ℚ) : RsIQR :=
  { e with iqr := iqrStUpdate e.iqr x }

/-- `RsIQR::get`. -/
def RsIQR.get (e : RsIQR) : ℚ := iqrStGet e.iqr

/-- `RsKurtosis::update`. -/
def RsKurtosis.update (e : RsKurtosis) (x : ℚ) : RsKurtosis :=
  { e with kurtosis := kurtUpdate e.kurtosis x }

/-- `RsKurtosis::get`. -/
def RsKurtosis.get (e : RsKurtosis) : ℚ := kurtGet e.kurtosis

/-- `RsPeakToPeak::update`. -/
def RsPeakToPeak.update (e : RsPeakToPeak) (x : ℚ) : RsPeakToPeak :=
  ⟨ptpUpdate e.ptp x⟩

/-- `RsPeakToPeak::get`. -/
def RsPeakToPeak.get (e : RsPeakToPeak) : ℚ := ptpGet e.ptp

/-- `RsSkew::update`. -/
def RsSkew.update (e : RsSkew) (x : ℚ) : RsSkew :=
  { e with skew := skewUpdate e.skew x }

/-- `RsSkew::get` (value in `ℝ` because of the 1.5 power). -/
noncomputable def RsSkew.get (e : RsSkew) : ℝ := skewGetR e.skew

/-- `RsRollingQuantile::update`. -/
def RsRollingQuantile.update (e : RsRollingQuantile) (x : ℚ) : RsRollingQuantile :=
  { e with stat := rqUpdate e.stat x }

/-- `RsRollingQuantile::get`. -/
def RsRollingQuantile.get (e : RsRollingQuantile) : ℚ := rqGet e.stat

/-- `RsRollingIQR::update`. -/
def RsRollingIQR.update (e : RsRollingIQR) (x : ℚ) : RsRollingIQR :=
  { e with stat := riqrUpdate e.stat x }

/-- `RsRollingIQR::get`. -/
def RsRollingIQR.get (e : RsRollingIQR) : ℚ := riqrGet e.stat

/-! ### Per-class `__getstate__` / `__setstate__` / `__getnewargs__`

`__getstate__` is `serialize(&self)` over the *whole* struct — the wrapped
estimator state and the duplicated parameter fields alike.  `__setstate__`
is `*self = deserialize(bytes).unwrap()`: on success the whole struct is
replaced, on failure the `unwrap` panics and `self` is left untouched. -/

/-- `RsQuantile::__getstate__`. -/
def RsQuantile.getstate (e : RsQuantile) : List ℚ := encP2 e.quantile

/-- Full-message decoder for `RsQuantile` (trailing tokens rejected). -/
def decRsQuantile (b : List ℚ) : Option RsQuantile :=
  match decP2 b with
  | some (s, []) => some ⟨s⟩
  | _ => none

/-- `RsQuantile::__setstate__`: the struct after the call and the outcome. -/
def RsQuantile.setstate (e : RsQuantile) (b : List ℚ) : RsQuantile × PyRes Unit :=
  match decRsQuantile b with
  | some s => (s, .ok ())
  | none => (e, .panicked unwrapMsg)

theorem decRsQuantile_getstate (e : RsQuantile) :
    decRsQuantile e.getstate = some e := by
  have h := decP2_enc e.quantile []
  simp only [List.append_nil] at h
  simp [decRsQuantile, RsQuantile.getstate, h]

/-- `RsEWMean::__getstate__`. -/
def RsEWMean.getstate (e : RsEWMean) : List ℚ := encEWMeanSt e.ewmean ++ [e.alpha]

/-- Full-message decoder for `RsEWMean`. -/
def decRsEWMean (b : List ℚ) : Option RsEWMean :=
  match decEWMeanSt b with
  | some (s, [a]) => some ⟨s, a⟩
  | _ => none

/-- `RsEWMean::__setstate__`. -/
def RsEWMean.setstate (e : RsEWMean) (b : List ℚ) : RsEWMean × PyRes Unit :=
  match decRsEWMean b with
  | some s => (s, .ok ())
  | none => (e, .panicked unwrapMsg)

/-- `RsEWMean::__getnewargs__` — returns the `(alpha,)` tuple. -/
def RsEWMean.getnewargs (e : RsEWMean) : ℚ := e.alpha

theorem decRsEWMean_getstate (e : RsEWMean) :
    decRsEWMean e.getstate = some e := by
  simp [decRsEWMean, RsEWMean.getstate, decEWMeanSt_enc]

/-- `RsEWVar::__getstate__`. -/
def RsEWVar.getstate (e : RsEWVar) : List ℚ := encEWVarSt e.ewvar ++ [e.alpha]

/-- Full-message decoder for `RsEWVar`. -/
def decRsEWVar (b : List ℚ) : Option RsEWVar :=
  match decEWVarSt b with
  | some (s, [a]) => some ⟨s, a⟩
  | _ => none

/-- `RsEWVar::__setstate__`. -/
def RsEWVar.setstate (e : RsEWVar) (b : List ℚ) : RsEWVar × PyRes Unit :=
  match decRsEWVar b with
  | some s => (s, .ok ())
  | none => (e, .panicked unwrapMsg)

/-- `RsEWVar::__getnewargs__` — returns the `(alpha,)` tuple. -/
def RsEWVar.getnewargs (e : RsEWVar) : ℚ := e.alpha

theorem decRsEWVar_getstate (e : RsEWVar) :
    decRsEWVar e.getstate = some e := by
  simp [decRsEWVar, RsEWVar.getstate, decEWVarSt_enc, encEWVarSt, decEWVarSt]

/-- `RsIQR::__getstate__`. -/
def RsIQR.getstate (e : RsIQR) : List ℚ := encIQRSt e.iqr ++ [e.q_inf, e.q_sup]

/-- Full-message decoder for `RsIQR`. -/
def decRsIQR (b : List ℚ) : Option RsIQR :=
  match decIQRSt b with
  | some (s, [qi, qs]) => some ⟨s, qi, qs⟩
  | _ => none

/-- `RsIQR::__setstate__`. -/
def RsIQR.setstate (e : RsIQR) (b : List ℚ) : RsIQR × PyRes Unit :=
  match decRsIQR b with
  | some s => (s, .ok ())
  | none => (e, .panicked unwrapMsg)

/-- `RsIQR::__getnewargs__` — returns the `(q_inf, q_sup)` tuple. -/
def RsIQR.getnewargs (e : RsIQR) : ℚ × ℚ := (e.q_inf, e.q_sup)

theorem decRsIQR_getstate (e : RsIQR) :
    decRsIQR e.getstate = some e := by
  simp [decRsIQR, RsIQR.getstate, decIQRSt_enc]

/-- `RsKurtosis::__getstate__`. -/
def RsKurtosis.getstate (e : RsKurtosis) : List ℚ :=
  encKurtSt e.kurtosis ++ writeBool e.bias

/-- Full-message decoder for `RsKurtosis`. -/
def decRsKurtosis (b : List ℚ) : Option RsKurtosis :=
  match decKurtSt b with
  | some (s, rest) =>
    match readBool rest with
    | some (bias, []) => some ⟨s, bias⟩
    | _ => none
  | _ => none

/-- `RsKurtosis::__setstate__`. -/
def RsKurtosis.setstate (e : RsKurtosis) (b : List ℚ) : RsKurtosis × PyRes Unit :=
  match decRsKurtosis b with
  | some s => (s, .ok ())
  | none => (e, .panicked unwrapMsg)

/-- `RsKurtosis::__getnewargs__` — returns the `(bias,)` tuple. -/
def RsKurtosis.getnewargs (e : RsKurtosis) : Bool := e.bias

theorem decRsKurtosis_getstate (e : RsKurtosis) :
    decRsKurtosis e.getstate = some e := by
  have h := readBool_write e.bias []
  simp only [List.append_nil] at h
  simp [decRsKurtosis, RsKurtosis.getstate, decKurtSt_enc, h]

/-- `RsPeakToPeak::__getstate__`. -/
def RsPeakToPeak.getstate (e : RsPeakToPeak) : List ℚ := encPtpSt e.ptp

/-- Full-message decoder for `RsPeakToPeak`. -/
def decRsPeakToPeak (b : List ℚ) : Option RsPeakToPeak :=
  match decPtpSt b with
  | some (s, []) => some ⟨s⟩
  | _ => none

/-- `RsPeakToPeak::__setstate__`. -/
def RsPeakToPeak.setstate (e : RsPeakToPeak) (b : List ℚ) :
    RsPeakToPeak × PyRes Unit :=
  match decRsPeakToPeak b with
  | some s => (s, .ok ())
  | none => (e, .panicked unwrapMsg)

theorem decRsPeakToPeak_getstate (e : RsPeakToPeak) :
    decRsPeakToPeak e.getstate = some e := by
  have h := decPtpSt_enc e.ptp []
  simp only [List.append_nil] at h
  simp [decRsPeakToPeak, RsPeakToPeak.getstate, h]

/-- `RsSkew::__getstate__`. -/
def RsSkew.getstate (e : RsSkew) : List ℚ := encSkewSt e.skew ++ writeBool e.bias

/-- Full-message decoder for `RsSkew`. -/
def decRsSkew (b : List ℚ) : Option RsSkew :=
  match decSkewSt b with
  | some (s, rest) =>
    match readBool rest with
    | some (bias, []) => some ⟨s, bias⟩
    | _ => none
  | _ => none

/-- `RsSkew::__setstate__`. -/
def RsSkew.setstate (e : RsSkew) (b : List ℚ) : RsSkew × PyRes Unit :=
  match decRsSkew b with
  | some s => (s, .ok ())
  | none => (e, .panicked unwrapMsg)

/-- `RsSkew::__getnewargs__` — returns the `(bias,)` tuple. -/
def RsSkew.getnewargs (e : RsSkew) : Bool := e.bias

theorem decRsSkew_getstate (e : RsSkew) :
    decRsSkew e.getstate = some e := by
  have h := readBool_write e.bias []
  simp only [List.append_nil] at h
  simp [decRsSkew, RsSkew.getstate, decSkewSt_enc, h]

/-- `RsRollingQuantile::__getstate__`. -/
def RsRollingQuantile.getstate (e : RsRollingQuantile) : List ℚ :=
  encRQSt e.stat ++ [e.q] ++ writeNat e.window_size

/-- Full-message decoder for `RsRollingQuantile`. -/
def decRsRollingQuantile (b : List ℚ) : Option RsRollingQuantile :=
  match decRQSt b with
  | some (s, rest) =>
    match readQ rest with
    | some (q, rest2) =>
      match readNat rest2 with
      | some (ws, []) => some ⟨s, q, ws⟩
      | _ => none
    | _ => none
  | _ => none

/-- `RsRollingQuantile::__setstate__`. -/
def RsRollingQuantile.setstate (e : RsRollingQuantile) (b : List ℚ) :
    RsRollingQuantile × PyRes Unit :=
  match decRsRollingQuantile b with
  | some s => (s, .ok ())
  | none => (e, .panicked unwrapMsg)

/-- `RsRollingQuantile::__getnewargs__` — returns the `(q, window_size)` tuple. -/
def RsRollingQuantile.getnewargs (e : RsRollingQuantile) : ℚ × ℕ :=
  (e.q, e.window_size)

theorem decRsRollingQuantile_getstate (e : RsRollingQuantile) :
    decRsRollingQuantile e.getstate = some e := by
  have h := readNat_write e.window_size []
  simp [decRsRollingQuantile, RsRollingQuantile.getstate, decRQSt_enc, readQ,
    writeNat, h]

/-- `RsRollingIQR::__getstate__`. -/
def RsRollingIQR.getstate (e : RsRollingIQR) : List ℚ :=
  encRIQRSt e.stat ++ [e.q_inf, e.q_sup] ++ writeNat e.window_size

/-- Full-message decoder for `RsRollingIQR`. -/
def decRsRollingIQR (b : List ℚ) : Option RsRollingIQR :=
  match decRIQRSt b with
  | some (s, rest) =>
    match rest with
    | qi :: qs :: rest2 =>
      match readNat rest2 with
      | some (ws, []) => some ⟨s, qi, qs, ws⟩
      | _ => none
    | _ => none
  | _ => none

/-- `RsRollingIQR::__setstate__`. -/
def RsRollingIQR.setstate (e : RsRollingIQR) (b : List ℚ) :
    RsRollingIQR × PyRes Unit :=
  match decRsRollingIQR b with
  | some s => (s, .ok ())
  | none => (e, .panicked unwrapMsg)

/-- `RsRollingIQR::__getnewargs__` — the `(q_inf, q_sup, window_size)` tuple. -/
def RsRollingIQR.getnewargs (e : RsRollingIQR) : ℚ × ℚ × ℕ :=
  (e.q_inf, e.q_sup, e.window_size)

theorem decRsRollingIQR_getstate (e : RsRollingIQR) :
    decRsRollingIQR e.getstate = some e := by
  have h := readNat_write e.window_size []
  simp [decRsRollingIQR, RsRollingIQR.getstate, decRIQRSt_enc, writeNat, h]

/-! ### The universe of estimator kinds exposed by the module -/

/-- One value of any of the nine estimator classes registered in
`_rust_stats`. -/
inductive Est where
  | quantile (s : RsQuantile)
  | ewmean (s : RsEWMean)
  | ewvar (s : RsEWVar)
  | iqr (s : RsIQR)
  | kurtosis (s : RsKurtosis)
  | ptp (s : RsPeakToPeak)
  | skew (s : RsSkew)
  | rollingQuantile (s : RsRollingQuantile)
  | rollingIQR (s : RsRollingIQR)
deriving DecidableEq, Repr

namespace Est

/-- Numeric tag of the estimator kind (class identity). -/
def tag : Est → ℕ
  | .quantile _ => 0
  | .ewmean _ => 1
  | .ewvar _ => 2
  | .iqr _ => 3
  | .kurtosis _ => 4
  | .ptp _ => 5
  | .skew _ => 6
  | .rollingQuantile _ => 7
  | .rollingIQR _ => 8

/-- The class's `update` method. -/
def update : Est → ℚ → Est
  | .quantile s, x => .quantile (s.update x)
  | .ewmean s, x => .ewmean (s.update x)
  | .ewvar s, x => .ewvar (s.update x)
  | .iqr s, x => .iqr (s.update x)
  | .kurtosis s, x => .kurtosis (s.update x)
  | .ptp s, x => .ptp (s.update x)
  | .skew s, x => .skew (s.update x)
  | .rollingQuantile s, x => .rollingQuantile (s.update x)
  | .rollingIQR s, x => .rollingIQR (s.update x)

/-- The class's `get` method (a pure read: every binding `get` borrows
`self` immutably).  Values live in `ℝ` because the skew statistic does. -/
noncomputable def get : Est → ℝ
  | .quantile s => (s.get : ℚ)
  | .ewmean s => (s.get : ℚ)
  | .ewvar s => (s.get : ℚ)
  | .iqr s => (s.get : ℚ)
  | .kurtosis s => (s.get : ℚ)
  | .ptp s => (s.get : ℚ)
  | .skew s => s.get
  | .rollingQuantile s => (s.get : ℚ)
  | .rollingIQR s => (s.get : ℚ)

/-- The class's `__getstate__` method. -/
def getstate : Est → List ℚ
  | .quantile s => s.getstate
  | .ewmean s => s.getstate
  | .ewvar s => s.getstate
  | .iqr s => s.getstate
  | .kurtosis s => s.getstate
  | .ptp s => s.getstate
  | .skew s => s.getstate
  | .rollingQuantile s => s.getstate
  | .rollingIQR s => s.getstate

/-- Decoding of a byte stream at the receiver's own class (deserialization
is type-directed: `deserialize::<Self>`). -/
def decodeFor : Est → List ℚ → Option Est
  | .quantile _, b => (decRsQuantile b).map .quantile
  | .ewmean _, b => (decRsEWMean b).map .ewmean
  | .ewvar _, b => (decRsEWVar b).map .ewvar
  | .iqr _, b => (decRsIQR b).map .iqr
  | .kurtosis _, b => (decRsKurtosis b).map .kurtosis
  | .ptp _, b => (decRsPeakToPeak b).map .ptp
  | .skew _, b => (decRsSkew b).map .skew
  | .rollingQuantile _, b => (decRsRollingQuantile b).map .rollingQuantile
  | .rollingIQR _, b => (decRsRollingIQR b).map .rollingIQR

/-- The class's `__setstate__` method: `*self = deserialize(bytes).unwrap()`.
On success the whole struct is replaced; on failure the `unwrap` panics
before any assignment, leaving `self` untouched. -/
def setstate (e : Est) (b : List ℚ) : Est × PyRes Unit :=
  match decodeFor e b with
  | some s => (s, .ok ())
  | none => (e, .panicked unwrapMsg)

/-- Construction-parameter tuples returned by `__getnewargs__`. -/
inductive NewArgs where
  | fl (a : ℚ)
  | fl2 (x y : ℚ)
  | flag (b : Bool)
  | flNat (q : ℚ) (w : ℕ)
  | fl2Nat (x y : ℚ) (w : ℕ)
deriving DecidableEq, Repr

/-- The class's `__getnewargs__` method; `RsQuantile` and `RsPeakToPeak` do
not expose one. -/
def getnewargs : Est → Option NewArgs
  | .quantile _ => none
  | .ewmean s => some (.fl s.getnewargs)
  | .ewvar s => some (.fl s.getnewargs)
  | .iqr s => some (.fl2 s.getnewargs.1 s.getnewargs.2)
  | .kurtosis s => some (.flag s.getnewargs)
  | .ptp _ => none
  | .skew s => some (.flag s.getnewargs)
  | .rollingQuantile s => some (.flNat s.getnewargs.1 s.getnewargs.2)
  | .rollingIQR s => some (.fl2Nat s.getnewargs.1 s.getnewargs.2.1 s.getnewargs.2.2)

/-- A freshly constructed estimator of the same class, built with the
construction parameters stored in `e` (the success path of each
constructor). -/
def freshOf : Est → Est
  | .quantile s => .quantile (RsQuantile.mk0 s.quantile.q)
  | .ewmean s => .ewmean (RsEWMean.new s.alpha)
  | .ewvar s => .ewvar (RsEWVar.new s.alpha)
  | .iqr s => .iqr (RsIQR.mk0 s.q_inf s.q_sup)
  | .kurtosis s => .kurtosis (RsKurtosis.new s.bias)
  | .ptp _ => .ptp RsPeakToPeak.new
  | .skew s => .skew (RsSkew.new s.bias)
  | .rollingQuantile s => .rollingQuantile (RsRollingQuantile.mk0 s.q s.window_size)
  | .rollingIQR s => .rollingIQR (RsRollingIQR.mk0 s.q_inf s.q_sup s.window_size)

end Est

theorem Est.tag_freshOf (e : Est) : e.freshOf.tag = e.tag := by
  cases e <;> rfl

/-- The central snapshot/restore fact: `__setstate__` on any receiver of the
same class fully reproduces the serialized estimator — duplicated parameter
fields included — and succeeds. -/
theorem Est.setstate_getstate (s t : Est) (h : s.tag = t.tag) :
    t.setstate s.getstate = (s, .ok ()) := by
  cases s <;> cases t <;> simp_all [Est.tag, Est.setstate, Est.decodeFor,
    Est.getstate, decRsQuantile_getstate, decRsEWMean_getstate,
    decRsEWVar_getstate, decRsIQR_getstate, decRsKurtosis_getstate,
    decRsPeakToPeak_getstate, decRsSkew_getstate,
    decRsRollingQuantile_getstate, decRsRollingIQR_getstate]

/-! ### Method-call semantics -/

/-- One observable method call on an estimator object. -/
inductive Meth where
  | update (x : ℚ)
  | get
deriving DecidableEq, Repr

/-- Semantics of one method call: `update(&mut self, x)` may replace the
state and returns nothing; `get(&self)` borrows the state immutably — the
post-state is the pre-state — and returns the value. -/
noncomputable def Est.call : Est → Meth → Est × Option ℝ
  | e, .update x => (e.update x, none)
  | e, .get => (e, some e.get)

/-- The state after a sequence of method calls. -/
noncomputable def runState (e : Est) (ms : List Meth) : Est :=
  ms.foldl (fun e m => (Est.call e m).1) e

/-- The trace of `get()` values along a sequence of updates: the value
before any update and after each one. -/
noncomputable def getTrace : Est → List ℚ → List ℝ
  | e, [] => [e.get]
  | e, x :: xs => e.get :: getTrace (e.update x) xs

theorem runState_nil (e : Est) : runState e [] = e := rfl

theorem runState_append (e : Est) (ms1 ms2 : List Meth) :
    runState e (ms1 ++ ms2) = runState (runState e ms1) ms2 :=
  List.foldl_append ..

theorem getnewargs_update (e : Est) (x : ℚ) :
    (e.update x).getnewargs = e.getnewargs := by
  cases e <;> rfl

theorem getnewargs_runState (e : Est) (ms : List Meth) :
    (runState e ms).getnewargs = e.getnewargs := by
  induction ms generalizing e with
  | nil => rfl
  | cons m t ih =>
    cases m with
    | update x =>
      have : runState e (.update x :: t) = runState (e.update x) t := rfl
      rw [this, ih, getnewargs_update]
    | get => exact ih e

/-! ### The batch distance routine (`RsGet1ToNDistances`) -/

/-- `get_distance(sample, sample2)`: the loop
`for i in 0..sample.len() { let diff = sample[i] - sample2[i]; sum += diff*diff }`. -/
def get_distance (sample sample2 : List ℚ) : ℚ :=
  (List.range sample.length).foldl
    (fun sum i => sum + (sample.getD i 0 - sample2.getD i 0) *
      (sample.getD i 0 - sample2.getD i 0)) 0

/-- `get_1_to_n_distances(sample, samples)`: allocates
`vec![0.0; samples.len() / sample.len()]` — a division that panics when
`sample` is empty — and fills entry `i` with the distance of `sample` to
the slice `samples[i*f..(i+1)*f]` where `f = sample.len()`. -/
def get_1_to_n_distances (sample samples : List ℚ) : PyRes (List ℚ) :=
  if sample.length = 0 then .panicked divZeroMsg
  else
    .ok ((List.range (samples.length / sample.length)).map
      (fun i => get_distance sample
        ((samples.drop (i * sample.length)).take sample.length)))

/-- Follows the spec's words: `distances[i] = Σ_{k=0}^{F-1}
(query[k] - references[i*F+k])^2` for each `i` in `[0,N)` (squared
Euclidean, no square root). -/
def distSpec (query references : List ℚ) (n : ℕ) : List ℚ :=
  (List.range n).map
    (fun i => ∑ k ∈ Finset.range query.length,
      (query.getD k 0 - references.getD (i * query.length + k) 0) ^ 2)

theorem foldl_range_add (f : ℕ → ℚ) (n : ℕ) :
    (List.range n).foldl (fun a i => a + f i) 0 = ∑ i ∈ Finset.range n, f i := by
  induction n with
  | zero => rfl
  | succ n ih => rw [List.range_succ, List.foldl_append, ih, Finset.sum_range_succ]; rfl

theorem get_distance_eq_sum (s t : List ℚ) :
    get_distance s t =
      ∑ k ∈ Finset.range s.length, (s.getD k 0 - t.getD k 0) ^ 2 := by
  rw [get_distance, ← foldl_range_add (fun k => (s.getD k 0 - t.getD k 0) ^ 2)]
  congr 1
  funext a i
  ring

theorem getD_take_drop (l : List ℚ) (m f k : ℕ) (hk : k < f) :
    ((l.drop m).take f).getD k 0 = l.getD (m + k) 0 := by
  simp [List.getD_eq_getElem?_getD, List.getElem?_take, hk, List.getElem?_drop]

theorem get_1_to_n_eq_spec (q refs : List ℚ) (h : q.length ≠ 0) :
    get_1_to_n_distances q refs = .ok (distSpec q refs (refs.length / q.length)) := by
  rw [get_1_to_n_distances, if_neg h, distSpec]
  refine congrArg _ (congrArg (fun f => List.map f (List.range (refs.length / q.length)))
    (funext fun i => ?_))
  rw [get_distance_eq_sum]
  refine Finset.sum_congr rfl fun k hk => ?_
  rw [getD_take_drop refs (i * q.length) q.length k (Finset.mem_range.mp hk)]

theorem getD_take (l : List ℚ) (n j : ℕ) (h : j < n) :
    (l.take n).getD j 0 = l.getD j 0 := by
  simp [List.getD_eq_getElem?_getD, List.getElem?_take, h]

theorem distSpec_take (q refs : List ℚ) :
    distSpec q (refs.take (refs.length / q.length * q.length))
        (refs.length / q.length) =
      distSpec q refs (refs.length / q.length) := by
  unfold distSpec
  refine List.map_congr_left fun i hi => ?_
  refine Finset.sum_congr rfl fun k hk => ?_
  have hi' := List.mem_range.mp hi
  have hk' := Finset.mem_range.mp hk
  have hlt : i * q.length + k < refs.length / q.length * q.length := by
    have h1 : i * q.length + k < (i + 1) * q.length := by
      have hs : (i + 1) * q.length = i * q.length + q.length := by ring
      omega
    have h2 : (i + 1) * q.length ≤ refs.length / q.length * q.length :=
      Nat.mul_le_mul_right _ (by omega)
    omega
  rw [getD_take refs _ _ hlt]

/-! ### The spec-side EWMean recurrence -/

/-- Follows the spec's words: one step of the EWMean recurrence — the
running mean is initialized to the first observation, and each subsequent
update performs `m <- m + alpha*(x - m)`. -/
def ewmeanStepSpec (alpha : ℚ) (m : Option ℚ) (x : ℚ) : Option ℚ :=
  match m with
  | none => some x
  | some mm => some (mm + alpha * (x - mm))

/-- Follows the spec's words: the step-by-step recurrence applied to a whole
input sequence, starting from the uninitialized mean. -/
def ewmeanSpecState (alpha : ℚ) (xs : List ℚ) : Option ℚ :=
  xs.foldl (ewmeanStepSpec alpha) none

/-- Feeding a sequence of observations to an `RsEWMean` via its `update`
method. -/
def feedEWMean (e : RsEWMean) (xs : List ℚ) : RsEWMean :=
  xs.foldl RsEWMean.update e

theorem feedEWMean_state (a b : ℚ) (m : Option ℚ) (xs : List ℚ) :
    feedEWMean ⟨⟨a, m⟩, b⟩ xs = ⟨⟨a, xs.foldl (ewmeanStepSpec a) m⟩, b⟩ := by
  induction xs generalizing m with
  | nil => rfl
  | cons x t ih =>
    have h1 : RsEWMean.update ⟨⟨a, m⟩, b⟩ x = ⟨⟨a, ewmeanStepSpec a m x⟩, b⟩ := by
      cases m <;> rfl
    show feedEWMean (RsEWMean.update ⟨⟨a, m⟩, b⟩ x) t = _
    rw [h1]
    exact ih _

/-! ### The claims -/

/-- C1: for every estimator kind and every state, restoring a snapshot of
`e` into a freshly constructed estimator with `e`'s original construction
parameters succeeds and yields a state-equivalent (here: identical)
estimator, so every subsequent identical sequence of `update` calls on the
original and on the restored instance produces identical `get()` results at
every step. -/
theorem c1_snapshot_restore_roundtrip (e : Est) (xs : List ℚ) :
    Est.setstate e.freshOf e.getstate = (e, .ok ()) ∧
    getTrace (Est.setstate e.freshOf e.getstate).1 xs = getTrace e xs := by
  have h := Est.setstate_getstate e e.freshOf (Est.tag_freshOf e).symm
  exact ⟨h, by rw [h]⟩

/-- C2 counterexample: the snapshot does *not* encode only the mutable
running state.  Two `RsEWMean` instances constructed with different `alpha`
but holding the same running mean (both just updated with the observation
1, which initializes the mean to 1) produce different `__getstate__` byte
strings — `serialize(&self)` covers the whole struct, `alpha` included. -/
theorem c2_snapshot_encodes_params_counterexample :
    (RsEWMean.update (RsEWMean.new (3 / 10)) 1).ewmean.mean =
      (RsEWMean.update (RsEWMean.new (7 / 10)) 1).ewmean.mean ∧
    RsEWMean.getstate (RsEWMean.update (RsEWMean.new (3 / 10)) 1) ≠
      RsEWMean.getstate (RsEWMean.update (RsEWMean.new (7 / 10)) 1) :=
  ⟨rfl, by norm_num [RsEWMean.getstate, RsEWMean.update, RsEWMean.new,
    ewmeanUpdate, encEWMeanSt, writeOptQ]⟩

/-- C2 amended: the snapshot encodes the entire struct — the mutable running
state *and* the stored construction parameters — and `__setstate__`
therefore reproduces the serialized estimator wholesale in any receiver of
the same class, overwriting the receiver's own parameters; the parameters
the caller re-supplies at reconstruction are not needed for state
fidelity. -/
theorem c2_snapshot_encodes_whole_struct (s t : Est) (h : s.tag = t.tag) :
    t.setstate s.getstate = (s, .ok ()) :=
  Est.setstate_getstate s t h

/-- C2 witness: restoring the snapshot of an `alpha = 0.3` instance into a
fresh `alpha = 0.7` instance yields the `alpha = 0.3` instance exactly. -/
theorem c2_snapshot_encodes_whole_struct_witness :
    Est.setstate (.ewmean (RsEWMean.new (7 / 10)))
        (Est.getstate (.ewmean (RsEWMean.update (RsEWMean.new (3 / 10)) 1))) =
      (.ewmean (RsEWMean.update (RsEWMean.new (3 / 10)) 1), .ok ()) :=
  c2_snapshot_encodes_whole_struct _ _ (by decide)

/-- C3 counterexample: `__setstate__` on a malformed byte string (the empty
stream) does not fail with a typed `CorruptSnapshot` error — no `PyErr` is
raised at all (`isErr = false`); instead `deserialize(..).unwrap()` panics,
leaving the receiver unchanged. -/
theorem c3_corrupt_snapshot_counterexample :
    RsQuantile.setstate (RsQuantile.mk0 1) [] =
      (RsQuantile.mk0 1, .panicked unwrapMsg) ∧
    (RsQuantile.setstate (RsQuantile.mk0 1) []).2.isErr = false :=
  ⟨rfl, rfl⟩

/-- C3 amended: for every estimator and every byte string its class cannot
deserialize, `__setstate__` aborts with the `unwrap` panic — not a typed
`CorruptSnapshot` error — and the target's prior mutable state is left
completely unchanged (the assignment `*self = ..` only happens after a
fully successful deserialization, so there is no partial overwrite). -/
theorem c3_restore_panics_state_unchanged (e : Est) (b : List ℚ)
    (h : e.decodeFor b = none) :
    e.setstate b = (e, .panicked unwrapMsg) := by
  simp [Est.setstate, h]

/-- C3 witness: a concrete undecodable stream against a concrete
`RsPeakToPeak`: the call panics and the state is untouched. -/
theorem c3_restore_panics_state_unchanged_witness :
    Est.setstate (.ptp RsPeakToPeak.new) [7] =
      (.ptp RsPeakToPeak.new, .panicked unwrapMsg) :=
  c3_restore_panics_state_unchanged _ _ (by decide)

/-- C4: for every query of length `F >= 1` and references array of length
`N*F`, the batch distance routine returns (without error) the vector of
length `N` whose `i`-th entry is the squared Euclidean distance
`Σ_{k<F} (query[k] - references[i*F+k])^2` — `distSpec`, written exactly
from the spec's formula, with no square root taken. -/
theorem c4_distances_squared_euclidean (query refs : List ℚ) (n : ℕ)
    (h1 : 1 ≤ query.length) (h2 : refs.length = n * query.length) :
    get_1_to_n_distances query refs = .ok (distSpec query refs n) ∧
    (distSpec query refs n).length = n := by
  have hf : query.length ≠ 0 := by omega
  have hn : refs.length / query.length = n := by
    rw [h2]
    exact Nat.mul_div_cancel _ (by omega)
  constructor
  · rw [get_1_to_n_eq_spec query refs hf, hn]
  · simp [distSpec]

/-- C4 witness: the spec's concrete example,
`distances([0,0], [0,0, 3,4, 1,1]) = [0, 25, 2]`. -/
theorem c4_distances_squared_euclidean_witness :
    get_1_to_n_distances [0, 0] [0, 0, 3, 4, 1, 1] = .ok [0, 25, 2] := by
  have h := (c4_distances_squared_euclidean [0, 0] [0, 0, 3, 4, 1, 1] 3
    (by decide) (by decide)).1
  rw [h]
  norm_num [distSpec, List.range_succ, Finset.sum_range_succ,
    List.getD_cons_zero, List.getD_cons_succ]

/-- C5 counterexample: a references array whose length (5) is not a
multiple of the query length (2) does *not* fail — the routine returns a
result, with no `InvalidArgument` and no error of any kind; and an empty
query does fail, but by a division-by-zero panic, not an `InvalidArgument`
error. -/
theorem c5_invalid_argument_counterexample :
    get_1_to_n_distances [0, 0] [0, 0, 3, 4, 1] = .ok [0, 25] ∧
    (get_1_to_n_distances [0, 0] [0, 0, 3, 4, 1]).isErr = false ∧
    get_1_to_n_distances [] [1] = .panicked divZeroMsg ∧
    (get_1_to_n_distances [] [1]).isErr = false := by
  refine ⟨?_, ?_, rfl, rfl⟩ <;>
    norm_num [get_1_to_n_distances, get_distance, List.range_succ,
      List.getD_cons_zero, List.getD_cons_succ, PyRes.isErr]

/-- C5 amended: the routine never raises `InvalidArgument`: an empty query
panics with Rust's division-by-zero, and any non-empty query succeeds
regardless of divisibility, returning the `floor(len/F)` complete-row
distances. -/
theorem c5_no_validation (query refs : List ℚ) :
    get_1_to_n_distances query refs =
      if query.length = 0 then .panicked divZeroMsg
      else .ok (distSpec query refs (refs.length / query.length)) := by
  by_cases h : query.length = 0
  · simp [get_1_to_n_distances, h]
  · rw [if_neg h]
    exact get_1_to_n_eq_spec query refs h

/-- C6 counterexample: `RsEWMean::new(1.5)` does not fail at all — `alpha`
is outside `(0,1)` yet construction succeeds (the constructor has no
failure path: `EWMean::new` returns `Self`, not `Result`) and the instance
then accepts updates; likewise `RsEWVar::new(1.5)`.  This contradicts the
claim that EWMean/EWVariance construction with such `alpha` fails with
`InvalidParameter` before any update is accepted. -/
theorem c6_invalid_parameter_counterexample :
    RsEWMean.new (3 / 2) = ⟨⟨3 / 2, none⟩, 3 / 2⟩ ∧
    RsEWVar.new (3 / 2) = ⟨⟨3 / 2, 0, 0⟩, 3 / 2⟩ ∧
    (RsEWMean.update (RsEWMean.new (3 / 2)) 1).get = 1 :=
  ⟨rfl, rfl, rfl⟩

/-- C6 amended: eager validation exists only where the inner constructor
returns a `Result`: `Quantile` with `q` outside `[0,1]` and
`RollingQuantile` with `window_size = 0` do fail at construction, before
any update — but via an `expect`/`unwrap` panic, not a typed
`InvalidParameter` error — while `EWMean`/`EWVariance` perform no `alpha`
validation at all and construct successfully for every `alpha`. -/
theorem c6_constructor_validation (q a : ℚ) (hq : ¬(0 ≤ q ∧ q ≤ 1)) :
    (RsQuantile.new (some q)).isPanicked = true ∧
    (RsQuantile.new (some q)).isErr = false ∧
    (RsRollingQuantile.new a 0).isPanicked = true ∧
    (RsRollingQuantile.new a 0).isErr = false ∧
    RsEWMean.new a = ⟨⟨a, none⟩, a⟩ ∧
    RsEWVar.new a = ⟨⟨a, 0, 0⟩, a⟩ := by
  have h2 : ¬(0 ≤ a ∧ a ≤ 1 ∧ 1 ≤ (0 : ℕ)) := by omega
  refine ⟨?_, ?_, ?_, ?_, rfl, rfl⟩ <;>
    simp [RsQuantile.new, RsRollingQuantile.new, hq, h2, PyRes.isPanicked,
      PyRes.isErr]

/-- C6 witness: `Quantile(q=2)` and `RollingQuantile(q=2, window_size=0)`
panic at construction; `EWMean(2)`/`EWVar(2)` construct successfully. -/
theorem c6_constructor_validation_witness :
    (RsQuantile.new (some 2)).isPanicked = true ∧
    (RsQuantile.new (some 2)).isErr = false ∧
    (RsRollingQuantile.new 2 0).isPanicked = true ∧
    (RsRollingQuantile.new 2 0).isErr = false ∧
    RsEWMean.new 2 = ⟨⟨2, none⟩, 2⟩ ∧
    RsEWVar.new 2 = ⟨⟨2, 0, 0⟩, 2⟩ :=
  c6_constructor_validation 2 2 (by norm_num)
/-- C7: for every `alpha` in `(0,1)` and every finite input sequence, the
`RsEWMean` state after feeding the sequence equals the spec's step-by-step
recurrence (mean initialized to the first observation, then
`m <- m + alpha*(x - m)`), and `get()` returns exactly that `m` — the
recurrence is reproduced exactly, not approximately. -/
theorem c7_ewmean_recurrence (alpha : ℚ) (xs : List ℚ)
    (_h1 : 0 < alpha) (_h2 : alpha < 1) :
    (feedEWMean (RsEWMean.new alpha) xs).ewmean.mean = ewmeanSpecState alpha xs ∧
    (feedEWMean (RsEWMean.new alpha) xs).get = (ewmeanSpecState alpha xs).getD 0 := by
  have h := feedEWMean_state alpha alpha none xs
  constructor
  · rw [show RsEWMean.new alpha = ⟨⟨alpha, none⟩, alpha⟩ from rfl, h]
    rfl
  · rw [show RsEWMean.new alpha = ⟨⟨alpha, none⟩, alpha⟩ from rfl, h]
    rfl

/-- C7 witness: `alpha = 1/2` on the sequence `[1, 2]`. -/
theorem c7_ewmean_recurrence_witness :
    ((0 : ℚ) < 1 / 2 ∧ (1 : ℚ) / 2 < 1) ∧
    (feedEWMean (RsEWMean.new (1 / 2)) [1, 2]).ewmean.mean =
      ewmeanSpecState (1 / 2) [1, 2] ∧
    (feedEWMean (RsEWMean.new (1 / 2)) [1, 2]).get =
      (ewmeanSpecState (1 / 2) [1, 2]).getD 0 :=
  ⟨⟨by norm_num, by norm_num⟩,
    c7_ewmean_recurrence (1 / 2) [1, 2] (by norm_num) (by norm_num)⟩

/-- C8: `get()` never advances the mutable state: the post-state of a `get`
call is its pre-state, inserting a `get` anywhere in a method sequence
leaves the resulting state unchanged, and hence every later `get` returns
the same value with or without the inserted call. -/
theorem c8_get_leaves_state_unchanged (e : Est) (ms1 ms2 : List Meth) :
    (Est.call e .get).1 = e ∧
    runState e (ms1 ++ .get :: ms2) = runState e (ms1 ++ ms2) ∧
    (runState e (ms1 ++ .get :: ms2)).get = (runState e (ms1 ++ ms2)).get := by
  have h : runState e (ms1 ++ .get :: ms2) = runState e (ms1 ++ ms2) := by
    rw [runState_append, runState_append]
    rfl
  exact ⟨rfl, h, by rw [h]⟩

/-- C9: for each of the seven classes exposing `__getnewargs__`, after every
sequence of `update` and `get` calls it returns exactly the construction
parameters the instance was created with — no observation ever changes
them.  (`RsRollingQuantile`/`RsRollingIQR`/`RsIQR` are built through the
success path of their fallible constructors.) -/
theorem c9_getnewargs_returns_construction_params (ms : List Meth)
    (a qi qs q : ℚ) (b : Bool) (w : ℕ) :
    (runState (.ewmean (RsEWMean.new a)) ms).getnewargs = some (.fl a) ∧
    (runState (.ewvar (RsEWVar.new a)) ms).getnewargs = some (.fl a) ∧
    (runState (.iqr (RsIQR.mk0 qi qs)) ms).getnewargs = some (.fl2 qi qs) ∧
    (runState (.kurtosis (RsKurtosis.new b)) ms).getnewargs = some (.flag b) ∧
    (runState (.skew (RsSkew.new b)) ms).getnewargs = some (.flag b) ∧
    (runState (.rollingQuantile (RsRollingQuantile.mk0 q w)) ms).getnewargs =
      some (.flNat q w) ∧
    (runState (.rollingIQR (RsRollingIQR.mk0 qi qs w)) ms).getnewargs =
      some (.fl2Nat qi qs w) := by
  refine ⟨?_, ?_, ?_, ?_, ?_, ?_, ?_⟩ <;> rw [getnewargs_runState] <;> rfl

/-- C10: for every non-empty query and every references array whose length
is not a multiple of the query length, the routine signals no error: it
returns the `floor(len/F)` distances computed from the complete `F`-element
rows only, and the trailing `len mod F` elements are ignored — truncating
the references array to the complete rows gives the identical result. -/
theorem c10_truncates_incomplete_rows (query refs : List ℚ)
    (h1 : 1 ≤ query.length) (_h2 : ¬ query.length ∣ refs.length) :
    get_1_to_n_distances query refs =
      .ok (distSpec query refs (refs.length / query.length)) ∧
    (distSpec query refs (refs.length / query.length)).length =
      refs.length / query.length ∧
    get_1_to_n_distances query refs =
      get_1_to_n_distances query
        (refs.take (refs.length / query.length * query.length)) := by
  have hf : query.length ≠ 0 := by omega
  have hmain := get_1_to_n_eq_spec query refs hf
  have hlen : (refs.take (refs.length / query.length * query.length)).length =
      refs.length / query.length * query.length := by
    rw [List.length_take]
    exact Nat.min_eq_left (Nat.div_mul_le_self _ _)
  refine ⟨hmain, by simp [distSpec], ?_⟩
  rw [hmain, get_1_to_n_eq_spec _ _ hf, hlen,
    Nat.mul_div_cancel _ (by omega : 0 < query.length), distSpec_take]

/-- C10 witness: query `[1,2]` (F = 2) against references `[1,2,3]`
(length 3, not a multiple of 2): no error, one distance, the trailing
element ignored. -/
theorem c10_truncates_incomplete_rows_witness :
    get_1_to_n_distances [1, 2] [1, 2, 3] = .ok [0] := by
  have h := (c10_truncates_incomplete_rows [1, 2] [1, 2, 3]
    (by decide) (by decide)).1
  rw [h]
  norm_num [distSpec, List.range_succ, Finset.sum_range_succ,
    List.getD_cons_zero, List.getD_cons_succ]
